import Mathlib

/-!
Shallow embedding of the RFC 9421 signature protocol core of the
agentic-commerce repository:

* `src/mcp-server/signature.js` — `generateSignature`, `generateKeypair`
* `src/backend/middleware.js` — `parseSignatureInput`, `parseSignature`,
  `buildSignatureBase`, `verifyEd25519Signature`, `verifySignature`,
  `registerAgent`, `agentRegistry`

JavaScript strings are modelled as `List Char` / `String`; the specific
regular expressions used by the middleware are modelled by hand-written
executable matchers implementing exactly the JS regex semantics of those
patterns (leftmost match, lazy/greedy groups, `.` not matching line
terminators, character classes matching line terminators).  The Ed25519 +
base64/hex pipeline from `@noble/ed25519` is abstracted as a
`CryptoScheme` parameter; theorems that need its correctness take it as an
explicit hypothesis.  The system clock and the RNG nonce are passed as
explicit arguments.
-/

set_option maxRecDepth 16384

namespace AgenticCommerce

/-- JS line terminators: the characters that `.` in a JS regex does NOT
match (LF, CR, LINE SEPARATOR, PARAGRAPH SEPARATOR). -/
def isLineTerm (c : Char) : Bool :=
  c.toNat = 10 || c.toNat = 13 || c.toNat = 0x2028 || c.toNat = 0x2029

/-- JS `\w`: ASCII letters, digits and underscore. -/
def isWordChar (c : Char) : Bool :=
  c.isAlpha || c.isDigit || c = '_'

/-- The whitespace set used by JS `String.prototype.trim` and by the
leading-whitespace skip of `parseInt` (WhiteSpace ∪ LineTerminator). -/
def isJSSpace (c : Char) : Bool :=
  c.toNat = 9 || c.toNat = 10 || c.toNat = 11 || c.toNat = 12 ||
  c.toNat = 13 || c.toNat = 32 || c.toNat = 160 || c.toNat = 0x1680 ||
  (0x2000 ≤ c.toNat && c.toNat ≤ 0x200A) ||
  c.toNat = 0x2028 || c.toNat = 0x2029 || c.toNat = 0x202F ||
  c.toNat = 0x205F || c.toNat = 0x3000 || c.toNat = 0xFEFF

/-- JS `value.replace(/"/g, '')`: delete every double quote. -/
def stripQuotes (l : List Char) : List Char :=
  l.filter (fun c => c ≠ '"')

/-- JS `String.prototype.trim`: drop leading and trailing whitespace. -/
def jsTrim (l : List Char) : List Char :=
  ((l.dropWhile isJSSpace).reverse.dropWhile isJSSpace).reverse

/-- JS `str.split(' ')`: split on every single space character; adjacent
separators and boundary separators yield empty fragments. -/
def splitOnSpace : List Char → List (List Char)
  | [] => [[]]
  | c :: rest =>
    if c = ' ' then [] :: splitOnSpace rest
    else
      match splitOnSpace rest with
      | g :: gs => (c :: g) :: gs
      | [] => [[c]]

/-- JS truthiness of a possibly-absent string header value:
`undefined` and the empty string are falsy. -/
def jsFalsy : Option String → Bool
  | none => true
  | some s => s = ""

/-- JS `x || d` for a possibly-absent string `x`. -/
def jsOr (x : Option String) (d : String) : String :=
  match x with
  | none => d
  | some s => if s = "" then d else s

/-! ### Decimal rendering and `parseInt`

`` `${created}` `` renders a nonnegative integer in decimal; `parseInt`
parses it back.  The renderer is fuelled so that it is structurally
recursive and hence kernel-reducible. -/

/-- The decimal digit character for `n < 10` (`'*'` is an unreachable
default). -/
def digitChar : Nat → Char
  | 0 => '0' | 1 => '1' | 2 => '2' | 3 => '3' | 4 => '4'
  | 5 => '5' | 6 => '6' | 7 => '7' | 8 => '8' | 9 => '9'
  | _ => '*'

/-- Decimal digits of `n`, most significant first; `fuel` bounds the
recursion depth (any `fuel > n` is enough). -/
def natCharsF : Nat → Nat → List Char
  | 0, _ => []
  | fuel + 1, n =>
    if n < 10 then [digitChar n]
    else natCharsF fuel (n / 10) ++ [digitChar (n % 10)]

/-- Decimal rendering of a natural number, as produced by JS template
interpolation of a nonnegative integer. -/
def natStr (n : Nat) : String := String.mk (natCharsF (n + 1) n)

/-- Fold a digit list into its value (used by the `parseInt` model). -/
def digitsVal (l : List Char) : Nat :=
  l.foldl (fun a c => a * 10 + (c.toNat - 48)) 0

/-- Leading decimal-digit run of `parseInt` (radix 10): `NaN` when the
run is empty, else its value. -/
def parseDecRun (l : List Char) : Option Nat :=
  let ds := l.takeWhile Char.isDigit
  if ds.isEmpty then none else some (digitsVal ds)

def hexDigitVal (c : Char) : Option Nat :=
  if c.isDigit then some (c.toNat - 48)
  else if 'a' ≤ c ∧ c ≤ 'f' then some (c.toNat - 87)
  else if 'A' ≤ c ∧ c ≤ 'F' then some (c.toNat - 55)
  else none

/-- Leading hexadecimal-digit run (for `parseInt`'s `0x` prefix case). -/
def parseHexRun (l : List Char) : Option Nat :=
  let ds := l.takeWhile (fun c => (hexDigitVal c).isSome)
  if ds.isEmpty then none
  else some (ds.foldl (fun a c => a * 16 + ((hexDigitVal c).getD 0)) 0)

/-- Magnitude part of JS `parseInt` with no radix argument: a `0x`/`0X`
prefix selects hexadecimal, otherwise decimal. -/
def parseIntAbs : List Char → Option Nat
  | '0' :: 'x' :: t => parseHexRun t
  | '0' :: 'X' :: t => parseHexRun t
  | t => parseDecRun t

/-- JS `parseInt` on a string's characters: skip leading whitespace,
optional sign, leading digit run; `none` models `NaN`. -/
def parseIntStr (l : List Char) : Option Int :=
  match l.dropWhile isJSSpace with
  | '-' :: t => (parseIntAbs t).map (fun n => -(n : Int))
  | '+' :: t => (parseIntAbs t).map (fun n => (n : Int))
  | t => (parseIntAbs t).map (fun n => (n : Int))

/-- JS `parseInt(s)` where `s` may be `undefined` (then the coerced
string `"undefined"` parses to `NaN`). -/
def parseIntJS : Option String → Option Int
  | none => none
  | some s => parseIntStr s.data

/-- The timestamp guard `!created || !expires || isNaN(created) ||
isNaN(expires)`: a parse result is bad when it is `NaN` or `0` (both are
falsy in JS). -/
def badTs : Option Int → Bool
  | none => true
  | some v => v = 0

/-! ### The middleware's regular expressions

`parseSignatureInput` uses `/sig1=\((.*?)\);(.+)/` and
`/(\w+)=("[^"]+"|[^;]+)/g`; `parseSignature` uses `/sig1=:([^:]+):/`;
`buildSignatureBase` uses `/sig1=(.+)/`.  Each is modelled as an
executable matcher with exactly the JS semantics of that pattern. -/

/-- Can the lazy group of `\((.*?)\);(.+)` stop right here?  True when
the current character is `)`, the next is `;`, and at least one
non-line-terminator character follows (so `(.+)` can match). -/
def closeHere (c : Char) (rest : List Char) : Bool :=
  c = ')' &&
    match rest with
    | ';' :: d :: _ => !isLineTerm d
    | _ => false

/-- Lazy scan for `(.*?)\);` followed by a matchable `(.+)`: returns the
group and the text after `);`.  The group grows one character at a time
(lazy semantics, with backtracking past a `);` whose continuation cannot
satisfy `(.+)`); a line terminator in the group aborts, since `.` does
not match it. -/
def lazyCloseSemi : List Char → Option (List Char × List Char)
  | [] => none
  | c :: rest =>
    if closeHere c rest then some ([], rest.drop 1)
    else if isLineTerm c then none
    else (lazyCloseSemi rest).map (fun p => (c :: p.1, p.2))

/-- Attempt `/sig1=\((.*?)\);(.+)/` anchored at the head of `l`:
on success returns (group 1, group 2). -/
def sigInputAt (l : List Char) : Option (List Char × List Char) :=
  match l with
  | 's' :: 'i' :: 'g' :: '1' :: '=' :: '(' :: t =>
    match lazyCloseSemi t with
    | some (g, r) => some (g, r.takeWhile (fun c => !isLineTerm c))
    | none => none
  | _ => none

/-- Leftmost match of `/sig1=\((.*?)\);(.+)/` over the whole string. -/
def findSigInputMatch : List Char → Option (List Char × List Char)
  | [] => none
  | c :: t =>
    match sigInputAt (c :: t) with
    | some res => some res
    | none => findSigInputMatch t

/-- First alternative `"[^"]+"` of the parameter-value group, anchored:
an opening quote, a nonempty greedy run of non-quotes, a closing quote.
The value is returned with its quotes (the caller strips them). -/
def matchQuoted (l : List Char) : Option (List Char × List Char) :=
  if l.head? = some '"' ∧
      (l.tail.dropWhile (fun c => c ≠ '"')).head? = some '"' ∧
      l.tail.takeWhile (fun c => c ≠ '"') ≠ [] then
    some ('"' :: l.tail.takeWhile (fun c => c ≠ '"') ++ ['"'],
      (l.tail.dropWhile (fun c => c ≠ '"')).tail)
  else none

/-- Attempt `/(\w+)=("[^"]+"|[^;]+)/` anchored at the head of `l`:
greedy `\w+` (nonempty), literal `=`, then the quoted alternative first,
else a nonempty greedy run of non-semicolons.  Returns
(key, raw value, rest after the match). -/
def matchParamAt (l : List Char) : Option (List Char × List Char × List Char) :=
  if (l.dropWhile isWordChar).head? = some '=' ∧ l.takeWhile isWordChar ≠ [] then
    match matchQuoted (l.dropWhile isWordChar).tail with
    | some (val, rest) => some (l.takeWhile isWordChar, val, rest)
    | none =>
      if (l.dropWhile isWordChar).tail.takeWhile (fun c => c ≠ ';') = [] then
        none
      else
        some (l.takeWhile isWordChar,
          (l.dropWhile isWordChar).tail.takeWhile (fun c => c ≠ ';'),
          (l.dropWhile isWordChar).tail.dropWhile (fun c => c ≠ ';'))
  else none

/-- One pass of `matchAll`: find successive non-overlapping leftmost
matches, resuming after each match.  `fuel` bounds the iteration count
(`l.length` is always enough, since every step consumes a character). -/
def scanParamsF : Nat → List Char → List (List Char × List Char)
  | 0, _ => []
  | _, [] => []
  | fuel + 1, c :: t =>
    match matchParamAt (c :: t) with
    | some (k, v, rest) => (k, v) :: scanParamsF fuel rest
    | none => scanParamsF fuel t

/-- All matches of `/(\w+)=("[^"]+"|[^;]+)/g` over `l`, in order. -/
def scanParams (l : List Char) : List (List Char × List Char) :=
  scanParamsF l.length l

/-- Attempt `/sig1=:([^:]+):/` anchored at the head of `l`: a nonempty
greedy run of non-colons followed by a closing colon. -/
def sigValueAt (l : List Char) : Option (List Char) :=
  match l with
  | 's' :: 'i' :: 'g' :: '1' :: '=' :: ':' :: t =>
    if (t.dropWhile (fun c => c ≠ ':')).head? = some ':' ∧
        t.takeWhile (fun c => c ≠ ':') ≠ [] then
      some (t.takeWhile (fun c => c ≠ ':'))
    else none
  | _ => none

/-- Leftmost match of `/sig1=:([^:]+):/` over the whole string
(`parseSignature`'s regex). -/
def findSignatureMatch : List Char → Option (List Char)
  | [] => none
  | c :: t =>
    match sigValueAt (c :: t) with
    | some res => some res
    | none => findSignatureMatch t

/-- Attempt `/sig1=(.+)/` anchored at the head of `l`. -/
def sigLineAt (l : List Char) : Option (List Char) :=
  match l with
  | 's' :: 'i' :: 'g' :: '1' :: '=' :: t =>
    if t.takeWhile (fun c => !isLineTerm c) = [] then none
    else some (t.takeWhile (fun c => !isLineTerm c))
  | _ => none

/-- Leftmost match of `/sig1=(.+)/` (used by `buildSignatureBase` to
recover the parameter string from `Signature-Input`). -/
def findSig1Line : List Char → Option (List Char)
  | [] => none
  | c :: t =>
    match sigLineAt (c :: t) with
    | some res => some res
    | none => findSig1Line t

/-! ### Header parsing (`parseSignatureInput`, `parseSignature`) -/

/-- Result of `parseSignatureInput`: the component list and the
parameter key/value pairs in match order.  In the source the pairs are
assigned into a plain object (`params[key] = ...`), so a duplicate key
keeps its last value; `getParam` reproduces that. -/
structure ParsedInput where
  components : List String
  params : List (String × String)
  deriving DecidableEq, Repr

/-- Property lookup on the parsed parameter object: the last assignment
for a key wins; `none` models `undefined`. -/
def getParam (ps : List (String × String)) (k : String) : Option String :=
  (ps.reverse.find? (fun p => p.1 = k)).map (fun p => p.2)

/-- Model of `parseSignatureInput` (middleware.js 13–34): match
`/sig1=\((.*?)\);(.+)/`; on failure the source throws (`none` here).
Components: group 1 split on spaces with quotes deleted.  Parameters:
every `/(\w+)=("[^"]+"|[^;]+)/g` match over group 2, each value with
quotes deleted and trimmed. -/
def parseSignatureInput (s : String) : Option ParsedInput :=
  match findSigInputMatch s.data with
  | none => none
  | some (g1, g2) =>
    some
      { components := (splitOnSpace g1).map (fun c => String.mk (stripQuotes c))
        params := (scanParams g2).map
          (fun kv => (String.mk kv.1, String.mk (jsTrim (stripQuotes kv.2)))) }

/-- Model of `parseSignature` (middleware.js 37–43): group 1 of
`/sig1=:([^:]+):/`; on failure the source throws (`none` here). -/
def parseSignature (s : String) : Option String :=
  (findSignatureMatch s.data).map String.mk

/-! ### Request descriptor and the signature base -/

/-- The fields of the Express request that the middleware reads.
`host`, `originalUrl` and the three signature headers may be absent
(`undefined`).  `Signature-Agent` is read by the source into a variable
that is never used. -/
structure Req where
  path : String
  method : String
  host : Option String
  originalUrl : Option String
  url : String
  signatureInput : Option String
  signature : Option String
  signatureAgent : Option String
  deriving DecidableEq, Repr

/-- Model of `buildSignatureBase` (middleware.js 46–64): one line per recognized
component (`@authority` from `req.get('host') || 'localhost:8000'`,
`@path` from `req.originalUrl || req.url`), others skipped; then the
final `"@signature-params"` line holding group 1 of `/sig1=(.+)/` over
the raw `Signature-Input`; joined with `\n`.  `none` models the TypeError
thrown when that regex does not match (`match(...)[1]` on `null`).
The `_ps` argument mirrors the source's unused `params` parameter.
`componentLine` is one iteration of the component loop: the line pushed
for a recognized component, `none` for any other id. -/
def componentLine (req : Req) (component : String) : Option String :=
  if component = "@authority" then
    some ("\"@authority\": " ++ jsOr req.host "localhost:8000")
  else if component = "@path" then
    some ("\"@path\": " ++ jsOr req.originalUrl req.url)
  else none

def buildSignatureBase (req : Req) (components : List String)
    (_ps : List (String × String)) (signatureInput : String) : Option String :=
  match findSig1Line signatureInput.data with
  | none => none
  | some g =>
    let lines := components.filterMap (componentLine req)
    some (String.intercalate "\n"
      (lines ++ ["\"@signature-params\": " ++ String.mk g]))

/-! ### Abstract Ed25519 + encodings -/

/-- Abstraction of the `@noble/ed25519` + `Buffer` pipeline:
`sign privHex base` is the base64 of `ed25519.sign(utf8 base, priv)`;
`verify sigB64 base pubHex` is `ed25519.verify` after base64/hex
decoding, with a thrown exception modelled as `.error`;
`pubOf privHex` is the hex of `ed25519.getPublicKey(priv)`
(`generateKeypair`, signature.js 61–69). -/
structure CryptoScheme where
  sign : String → String → String
  verify : String → String → String → Except String Bool
  pubOf : String → String

/-- Model of `verifyEd25519Signature` (middleware.js 67–78): any exception from
decoding or from `ed25519.verify` is caught and turned into `false`. -/
def verifyEd25519Signature (C : CryptoScheme)
    (signatureBase signatureB64 publicKeyHex : String) : Bool :=
  match C.verify signatureB64 signatureBase publicKeyHex with
  | .ok b => b
  | .error _ => false

/-! ### Agent registry -/

/-- A registry entry (`registerAgent`, middleware.js 189–198). -/
structure Agent where
  name : String
  publicKey : String
  algorithm : String
  registeredAt : String
  deriving DecidableEq, Repr

/-- The in-memory `Map`: modelled as an association list where `set`
prepends and `get` takes the first hit, which is exactly the Map's
overwrite-on-set semantics. -/
def Registry : Type := List (String × Agent)

/-- Lookup `agentRegistry.get(keyid)` for a string key. -/
def registryGet (r : Registry) (k : String) : Option Agent :=
  (List.find? (fun p => p.1 = k) r).map (fun p => p.2)

/-- Lookup `agentRegistry.get(params.keyid)`: when the `keyid` parameter is
absent the lookup key is `undefined`, which no string key equals. -/
def registryGet2 (r : Registry) (k : Option String) : Option Agent :=
  match k with
  | none => none
  | some s => registryGet r s

/-- Model of `registerAgent(keyid, name, publicKey, algorithm = 'ed25519')`
(middleware.js 189–198): overwrite the entry and return
`{ keyid, name }`.  `registeredAt` (`new Date().toISOString()`) is
passed in explicitly. -/
def registerAgent (r : Registry) (keyid name publicKey algorithm registeredAt : String) :
    Registry × (String × String) :=
  ((keyid, ⟨name, publicKey, algorithm, registeredAt⟩) :: r, (keyid, name))

/-! ### The verifier -/

/-- Outcome of the middleware for one request: `skipped` is the
registration-endpoint bypass (`next()` with no agent attached);
`accepted id name` is `req.agent = {id, name}; next()`; `rejected e m`
is `res.status(401).json({error: e, message: m})`. -/
inductive Outcome where
  | skipped
  | accepted (id name : String)
  | rejected (error message : String)
  deriving DecidableEq, Repr

/-- The timestamp checks of `verifySignature` (middleware.js 128–147),
after `created`/`expires` parsed as numbers: future beyond 60 s of clock
skew, already expired, or validity window over 300 s.  `none` means all
three pass. -/
def checkTimestamps (now created expires : Int) : Option Outcome :=
  if created > now + 60 then
    some (.rejected "Signature from future"
      "Signature created timestamp is in the future")
  else if expires < now then
    some (.rejected "Signature expired" "Signature has expired")
  else if expires - created > 300 then
    some (.rejected "Signature validity too long"
      "Signature validity period exceeds 5 minutes")
  else none

/-- Stage of `verifySignature` after the registry hit (middleware.js 113–178):
timestamp parsing and checks, base reconstruction, cryptographic
verification, then `req.agent = {id: params.keyid, name: agent.name}`.
Only the agent's `name` and `publicKey` fields are read, so they are
passed explicitly. -/
def verifyStage (C : CryptoScheme) (req : Req) (parsed : ParsedInput)
    (si sigValue agentName agentPub kidStr : String) (now : Int) : Outcome :=
  let created? := parseIntJS (getParam parsed.params "created")
  let expires? := parseIntJS (getParam parsed.params "expires")
  if badTs created? || badTs expires? then
    .rejected "Invalid timestamp"
      "Signature must include created and expires parameters"
  else
    match checkTimestamps now (created?.getD 0) (expires?.getD 0) with
    | some out => out
    | none =>
      match buildSignatureBase req parsed.components parsed.params si with
      | none =>
        .rejected "Signature verification failed"
          "Cannot read properties of null (reading 1)"
      | some base =>
        if verifyEd25519Signature C base sigValue agentPub then
          .accepted kidStr agentName
        else
          .rejected "Invalid signature" "Signature verification failed"

/-- Model of `verifySignature` (middleware.js 81–186).  Stages in source order:
registration-endpoint bypass; missing-header check (`undefined` or empty
is falsy); `parseSignatureInput` and `parseSignature` (a throw lands in
the outer catch, whose response has error `"Signature verification
failed"` and the thrown message); registry lookup; then `verifyStage`.
The `Signature-Agent` header is read into an unused variable and plays
no role. -/
def verifySignature (C : CryptoScheme) (registry : Registry) (now : Int)
    (req : Req) : Outcome :=
  if req.path = "/api/registry/register" ∧ req.method = "POST" then .skipped
  else if jsFalsy req.signatureInput || jsFalsy req.signature then
    .rejected "Missing signature headers"
      "Signature-Input and Signature headers are required"
  else
    let si := req.signatureInput.getD ""
    let sg := req.signature.getD ""
    match parseSignatureInput si with
    | none =>
      .rejected "Signature verification failed" "Invalid Signature-Input format"
    | some parsed =>
      match parseSignature sg with
      | none =>
        .rejected "Signature verification failed" "Invalid Signature format"
      | some sigValue =>
        let kid? := getParam parsed.params "keyid"
        let kidStr := kid?.getD "undefined"
        match registryGet2 registry kid? with
        | none =>
          .rejected "Unknown agent"
            ("Agent with keyid \"" ++ kidStr ++ "\" not found in registry")
        | some agent =>
          verifyStage C req parsed si sigValue agent.name agent.publicKey
            kidStr now

/-! ### The signer (`generateSignature`, signature.js 17–55)

`created = Math.floor(Date.now()/1000)` and the random nonce are passed
in as the `now` and `nonce` arguments. -/

/-- The parameter string built by the signer:
`` ("@authority" "@path"); created=⋯; expires=⋯; keyid="⋯"; alg="ed25519"; nonce="⋯"; tag="agent-payer-auth" ``. -/
def signatureParamsStr (created expires : Nat) (keyId nonce : String) : String :=
  "(\"@authority\" \"@path\"); created=" ++ natStr created ++
  "; expires=" ++ natStr expires ++
  "; keyid=\"" ++ keyId ++
  "\"; alg=\"ed25519\"; nonce=\"" ++ nonce ++
  "\"; tag=\"agent-payer-auth\""

/-- The three-line signature base built by the signer. -/
def signedBaseStr (authority path sp : String) : String :=
  "\"@authority\": " ++ authority ++ "\n\"@path\": " ++ path ++
  "\n\"@signature-params\": " ++ sp

/-- The headers returned by `generateSignature`. -/
structure SigHeaders where
  signatureInput : String
  signature : String
  signatureAgent : String
  deriving DecidableEq, Repr

/-- Model of `generateSignature(authority, path, keyId, privateKey)`:
`expires = created + 60`; sign the base; return
`Signature-Input: sig1=<params>`, `Signature: sig1=:<b64>:`, and the
advisory `Signature-Agent`. -/
def generateSignature (C : CryptoScheme) (authority path keyId privateKey : String)
    (now : Nat) (nonce : String) : SigHeaders :=
  let created := now
  let expires := created + 60
  let sp := signatureParamsStr created expires keyId nonce
  let base := signedBaseStr authority path sp
  let sigB64 := C.sign privateKey base
  ⟨"sig1=" ++ sp, "sig1=:" ++ sigB64 ++ ":", "claude-desktop-agent"⟩

/-! ### Concrete fixtures for counterexamples and witnesses -/

/-- A toy scheme satisfying the `CryptoScheme` interface: it accepts
exactly the payload `SIG`.  Used to drive concrete pipeline runs. -/
def toyScheme : CryptoScheme :=
  ⟨fun _ _ => "SIG", fun s _ _ => .ok (s = "SIG"), fun p => p ++ "-pub"⟩

/-- A scheme whose `verify` always throws, modelling a broken crypto
library. -/
def throwingScheme : CryptoScheme :=
  ⟨fun _ _ => "SIG", fun _ _ _ => .error "boom", fun p => p ++ "-pub"⟩

/-- A scheme whose `verify` always returns `false` without throwing. -/
def falseScheme : CryptoScheme :=
  ⟨fun _ _ => "SIG", fun _ _ _ => .ok false, fun p => p ++ "-pub"⟩

/-- A well-formed request carrying a signature over `@authority` and
`@path` with `created=1000`, `expires=1060`, `keyid="k"`,
`alg="ed25519"`. -/
def reqK : Req :=
  ⟨"/api/products", "GET", some "localhost:8000",
   some "/api/products?q=laptop", "/api/products?q=laptop",
   some "sig1=(\"@authority\" \"@path\"); created=1000; expires=1060; keyid=\"k\"; alg=\"ed25519\"; nonce=\"ab12\"; tag=\"agent-payer-auth\"",
   some "sig1=:SIG:", some "claude-desktop-agent"⟩

/-- A registry holding `keyid "k"` with stored algorithm `"rsa"`. -/
def regRsa : Registry := [("k", ⟨"agent-name", "PUB", "rsa", "t0"⟩)]

/-! ### List helpers for the symbolic round-trip proof -/

theorem takeWhile_append_stop (p : Char → Bool) (w : List Char)
    (hw : ∀ c ∈ w, p c = true) (x : Char) (hx : p x = false) (r : List Char) :
    (w ++ x :: r).takeWhile p = w := by
  induction w with
  | nil => simp [List.takeWhile_cons, hx]
  | cons a t ih =>
    have ha := hw a (by simp)
    simp [List.takeWhile_cons, ha, ih (fun c hc => hw c (by simp [hc]))]

theorem dropWhile_append_stop (p : Char → Bool) (w : List Char)
    (hw : ∀ c ∈ w, p c = true) (x : Char) (hx : p x = false) (r : List Char) :
    (w ++ x :: r).dropWhile p = x :: r := by
  induction w with
  | nil => simp [List.dropWhile_cons, hx]
  | cons a t ih =>
    have ha := hw a (by simp)
    simp [List.dropWhile_cons, ha, ih (fun c hc => hw c (by simp [hc]))]

theorem takeWhile_all (p : Char → Bool) (l : List Char)
    (h : ∀ c ∈ l, p c = true) : l.takeWhile p = l := by
  induction l with
  | nil => rfl
  | cons a t ih =>
    have ha := h a (by simp)
    simp [List.takeWhile_cons, ha, ih (fun c hc => h c (by simp [hc]))]

/-! ### Decimal rendering round-trips through `parseInt` -/

/-- The ten decimal digit characters. -/
def decDigits : List Char := ['0', '1', '2', '3', '4', '5', '6', '7', '8', '9']

theorem digitChar_mem (n : Nat) (h : n < 10) : digitChar n ∈ decDigits := by
  interval_cases n <;> decide

theorem natCharsF_mem : ∀ fuel n, n < fuel →
    ∀ c ∈ natCharsF fuel n, c ∈ decDigits := by
  intro fuel
  induction fuel with
  | zero => omega
  | succ f ih =>
    intro n h c hc
    unfold natCharsF at hc
    by_cases h10 : n < 10
    · rw [if_pos h10] at hc
      simp only [List.mem_singleton] at hc
      exact hc ▸ digitChar_mem n h10
    · rw [if_neg h10] at hc
      rcases List.mem_append.1 hc with hl | hr
      · have hlt : n / 10 < f := by
          have := Nat.div_lt_self (by omega : 0 < n) (by omega : 1 < 10)
          omega
        exact ih (n / 10) hlt c hl
      · simp only [List.mem_singleton] at hr
        exact hr ▸ digitChar_mem (n % 10) (Nat.mod_lt n (by omega))

theorem natCharsF_ne_nil : ∀ fuel n, n < fuel → natCharsF fuel n ≠ [] := by
  intro fuel
  induction fuel with
  | zero => omega
  | succ f _ =>
    intro n _
    unfold natCharsF
    by_cases h10 : n < 10 <;> simp [h10]

theorem digitChar_toNat (n : Nat) (h : n < 10) : (digitChar n).toNat = 48 + n := by
  interval_cases n <;> decide

theorem natCharsF_foldl : ∀ fuel n, n < fuel → ∀ a : Nat,
    (natCharsF fuel n).foldl (fun acc c => acc * 10 + (c.toNat - 48)) a =
      a * 10 ^ (natCharsF fuel n).length + n := by
  intro fuel
  induction fuel with
  | zero => omega
  | succ f ih =>
    intro n h a
    unfold natCharsF
    by_cases h10 : n < 10
    · rw [if_pos h10]
      simp [List.foldl, digitChar_toNat n h10]
    · rw [if_neg h10]
      have hlt : n / 10 < f := by
        have := Nat.div_lt_self (by omega : 0 < n) (by omega : 1 < 10)
        omega
      rw [List.foldl_append, ih (n / 10) hlt a]
      simp only [List.foldl, List.length_append, List.length_singleton]
      rw [digitChar_toNat (n % 10) (Nat.mod_lt n (by omega))]
      have hmod : 48 + n % 10 - 48 = n % 10 := by omega
      rw [hmod, pow_succ]
      have := Nat.div_add_mod n 10
      ring_nf
      omega

/-- Every fact about a digit character we need, packaged for reuse. -/
theorem decDigit_facts (c : Char) (h : c ∈ decDigits) :
    c.isDigit = true ∧ isJSSpace c = false ∧ isLineTerm c = false ∧
    isWordChar c = true ∧ c ≠ '"' ∧ c ≠ ';' ∧ c ≠ ':' ∧ c ≠ ')' := by
  fin_cases h <;> exact ⟨rfl, rfl, rfl, rfl, by decide, by decide, by decide, by decide⟩

theorem parseDecRun_natCharsF (fuel n : Nat) (h : n < fuel) :
    parseDecRun (natCharsF fuel n) = some n := by
  unfold parseDecRun
  rw [takeWhile_all Char.isDigit _
    (fun c hc => (decDigit_facts c (natCharsF_mem fuel n h c hc)).1)]
  rw [if_neg (by simpa using natCharsF_ne_nil fuel n h)]
  unfold digitsVal
  rw [natCharsF_foldl fuel n h 0]
  simp

theorem parseIntStr_digits (l : List Char) (m : Nat) (hne : l ≠ [])
    (hmem : ∀ c ∈ l, c ∈ decDigits) (hval : parseDecRun l = some m) :
    parseIntStr l = some (m : Int) := by
  obtain ⟨c0, t0, rfl⟩ : ∃ c0 t0, l = c0 :: t0 := by
    cases l with
    | nil => exact absurd rfl hne
    | cons a b => exact ⟨a, b, rfl⟩
  have hc0 : c0 ∈ decDigits := hmem c0 (by simp)
  have hd : (c0 :: t0).dropWhile isJSSpace = c0 :: t0 := by
    rw [List.dropWhile_cons, if_neg (by simp [(decDigit_facts c0 hc0).2.1])]
  have habs : parseIntAbs (c0 :: t0) = some m := by
    unfold parseIntAbs
    split
    · rename_i t heq
      have hx : 'x' ∈ decDigits := hmem 'x' (by rw [heq]; simp)
      exact absurd hx (by decide)
    · rename_i t heq
      have hX : 'X' ∈ decDigits := hmem 'X' (by rw [heq]; simp)
      exact absurd hX (by decide)
    · exact hval
  unfold parseIntStr
  rw [hd]
  split
  · rename_i t heq
    have hm : '-' ∈ decDigits := hmem '-' (by rw [heq]; simp)
    exact absurd hm (by decide)
  · rename_i t heq
    have hp : '+' ∈ decDigits := hmem '+' (by rw [heq]; simp)
    exact absurd hp (by decide)
  · rw [habs]
    rfl

theorem parseIntJS_natStr (n : Nat) :
    parseIntJS (some (natStr n)) = some (n : Int) := by
  have hdata : (natStr n).data = natCharsF (n + 1) n := rfl
  have hstep : parseIntJS (some (natStr n)) = parseIntStr (natStr n).data := rfl
  rw [hstep, hdata]
  exact parseIntStr_digits _ n (natCharsF_ne_nil _ n (by omega))
    (natCharsF_mem _ n (by omega)) (parseDecRun_natCharsF _ n (by omega))

/-! ### Canonical behaviour of the regex models on well-formed input -/

theorem length_dropWhile_le (p : Char → Bool) (l : List Char) :
    (l.dropWhile p).length ≤ l.length := by
  have h := congrArg List.length
    (List.takeWhile_append_dropWhile (p := p) (l := l))
  simp only [List.length_append] at h
  omega

theorem lazyCloseSemi_pre (pre : List Char) (d : Char) (r2 : List Char)
    (hpre : ∀ c ∈ pre, isLineTerm c = false ∧ c ≠ ')')
    (hd : isLineTerm d = false) :
    lazyCloseSemi (pre ++ ')' :: ';' :: d :: r2) = some (pre, d :: r2) := by
  induction pre with
  | nil =>
    have hch : closeHere ')' (';' :: d :: r2) = true := by
      simp [closeHere, hd]
    show lazyCloseSemi (')' :: ';' :: d :: r2) = some ([], d :: r2)
    unfold lazyCloseSemi
    rw [if_pos hch]
    rfl
  | cons a t ih =>
    have ha := hpre a (by simp)
    have hch : closeHere a (t ++ ')' :: ';' :: d :: r2) = false := by
      simp [closeHere, ha.2]
    show lazyCloseSemi (a :: (t ++ ')' :: ';' :: d :: r2)) = _
    unfold lazyCloseSemi
    rw [if_neg (by simp [hch]), if_neg (by simp [ha.1]),
      ih (fun c hc => hpre c (by simp [hc]))]
    rfl

theorem findSigInputMatch_canonical (inner : List Char) (d : Char)
    (r2 : List Char)
    (hinner : ∀ c ∈ inner, isLineTerm c = false ∧ c ≠ ')')
    (hd : isLineTerm d = false)
    (hr2 : ∀ c ∈ d :: r2, isLineTerm c = false) :
    findSigInputMatch
        ('s' :: 'i' :: 'g' :: '1' :: '=' :: '(' ::
          (inner ++ ')' :: ';' :: d :: r2)) =
      some (inner, d :: r2) := by
  have htake : (d :: r2).takeWhile (fun c => !isLineTerm c) = d :: r2 :=
    takeWhile_all _ _ (fun c hc => by simp [hr2 c hc])
  have hat : sigInputAt
      ('s' :: 'i' :: 'g' :: '1' :: '=' :: '(' ::
        (inner ++ ')' :: ';' :: d :: r2)) = some (inner, d :: r2) := by
    simp only [sigInputAt, lazyCloseSemi_pre inner d r2 hinner hd, htake]
  unfold findSigInputMatch
  rw [hat]

theorem findSignatureMatch_canonical (p0 : Char) (pt : List Char)
    (hnc : ∀ c ∈ p0 :: pt, c ≠ ':') :
    findSignatureMatch
        ('s' :: 'i' :: 'g' :: '1' :: '=' :: ':' :: ((p0 :: pt) ++ [':'])) =
      some (p0 :: pt) := by
  have htake : ((p0 :: pt) ++ ':' :: ([] : List Char)).takeWhile
      (fun c => c ≠ ':') = p0 :: pt :=
    takeWhile_append_stop _ _ (fun c hc => by simp [hnc c hc]) ':'
      (by decide) []
  have hdrop : ((p0 :: pt) ++ ':' :: ([] : List Char)).dropWhile
      (fun c => c ≠ ':') = ':' :: [] :=
    dropWhile_append_stop _ _ (fun c hc => by simp [hnc c hc]) ':'
      (by decide) []
  have hat : sigValueAt
      ('s' :: 'i' :: 'g' :: '1' :: '=' :: ':' :: ((p0 :: pt) ++ [':'])) =
      some (p0 :: pt) := by
    simp only [sigValueAt, htake, hdrop, List.head?_cons]
    rw [if_pos ⟨trivial, by simp⟩]
  unfold findSignatureMatch
  rw [hat]

theorem findSig1Line_canonical (sp0 : Char) (spt : List Char)
    (hLT : ∀ c ∈ sp0 :: spt, isLineTerm c = false) :
    findSig1Line ('s' :: 'i' :: 'g' :: '1' :: '=' :: sp0 :: spt) =
      some (sp0 :: spt) := by
  have htake : (sp0 :: spt).takeWhile (fun c => !isLineTerm c) = sp0 :: spt :=
    takeWhile_all _ _ (fun c hc => by simp [hLT c hc])
  have hat : sigLineAt ('s' :: 'i' :: 'g' :: '1' :: '=' :: sp0 :: spt) =
      some (sp0 :: spt) := by
    simp only [sigLineAt, htake]
    rw [if_neg (by simp)]
  unfold findSig1Line
  rw [hat]

theorem matchParamAt_nil : matchParamAt [] = none := rfl

theorem matchParamAt_skip (c : Char) (t : List Char)
    (h1 : isWordChar c = false) (h2 : c ≠ '=') :
    matchParamAt (c :: t) = none := by
  have hdrop : (c :: t).dropWhile isWordChar = c :: t := by
    rw [List.dropWhile_cons, if_neg (by simp [h1])]
  unfold matchParamAt
  rw [hdrop]
  rw [if_neg (by simp [h2])]

theorem matchQuoted_not_quote (l : List Char) (h : l.head? ≠ some '"') :
    matchQuoted l = none := by
  unfold matchQuoted
  rw [if_neg (fun hc => h hc.1)]

theorem matchParamAt_unquoted (w v r : List Char)
    (hw : w ≠ []) (hwc : ∀ c ∈ w, isWordChar c = true)
    (v0 : Char) (vt : List Char) (hv : v = v0 :: vt) (hvq : v0 ≠ '"')
    (hvs : ∀ c ∈ v, c ≠ ';') :
    matchParamAt (w ++ '=' :: (v ++ ';' :: r)) = some (w, v, ';' :: r) := by
  subst hv
  have heq : isWordChar '=' = false := by decide
  have htakeW : (w ++ '=' :: ((v0 :: vt) ++ ';' :: r)).takeWhile isWordChar = w :=
    takeWhile_append_stop _ _ hwc '=' heq _
  have hdropW : (w ++ '=' :: ((v0 :: vt) ++ ';' :: r)).dropWhile isWordChar =
      '=' :: ((v0 :: vt) ++ ';' :: r) :=
    dropWhile_append_stop _ _ hwc '=' heq _
  have hquoted : matchQuoted ((v0 :: vt) ++ ';' :: r) = none :=
    matchQuoted_not_quote _ (by simp [hvq])
  have htakeV : ((v0 :: vt) ++ ';' :: r).takeWhile (fun c => c ≠ ';') =
      v0 :: vt :=
    takeWhile_append_stop _ _ (fun c hc => by simp [hvs c hc]) ';'
      (by decide) _
  have hdropV : ((v0 :: vt) ++ ';' :: r).dropWhile (fun c => c ≠ ';') =
      ';' :: r :=
    dropWhile_append_stop _ _ (fun c hc => by simp [hvs c hc]) ';'
      (by decide) _
  unfold matchParamAt
  rw [htakeW, hdropW]
  simp only [List.head?_cons, List.tail_cons, hquoted, htakeV, hdropV]
  rw [if_pos ⟨trivial, hw⟩, if_neg (by simp)]

theorem matchParamAt_quoted (w q r : List Char)
    (hw : w ≠ []) (hwc : ∀ c ∈ w, isWordChar c = true)
    (hq0 : q ≠ []) (hqq : ∀ c ∈ q, c ≠ '"') :
    matchParamAt (w ++ '=' :: '"' :: (q ++ '"' :: r)) =
      some (w, '"' :: q ++ ['"'], r) := by
  have heq : isWordChar '=' = false := by decide
  have htakeW : (w ++ '=' :: '"' :: (q ++ '"' :: r)).takeWhile isWordChar = w :=
    takeWhile_append_stop _ _ hwc '=' heq _
  have hdropW : (w ++ '=' :: '"' :: (q ++ '"' :: r)).dropWhile isWordChar =
      '=' :: '"' :: (q ++ '"' :: r) :=
    dropWhile_append_stop _ _ hwc '=' heq _
  have htakeQ : (q ++ '"' :: r).takeWhile (fun c => c ≠ '"') = q :=
    takeWhile_append_stop _ _ (fun c hc => by simp [hqq c hc]) '"'
      (by decide) _
  have hdropQ : (q ++ '"' :: r).dropWhile (fun c => c ≠ '"') = '"' :: r :=
    dropWhile_append_stop _ _ (fun c hc => by simp [hqq c hc]) '"'
      (by decide) _
  have hquoted : matchQuoted ('"' :: (q ++ '"' :: r)) =
      some ('"' :: q ++ ['"'], r) := by
    unfold matchQuoted
    simp only [List.head?_cons, List.tail_cons, htakeQ, hdropQ]
    rw [if_pos ⟨trivial, trivial, hq0⟩]
  unfold matchParamAt
  rw [htakeW, hdropW]
  simp only [List.head?_cons, List.tail_cons, hquoted]
  rw [if_pos ⟨trivial, hw⟩]

theorem matchQuoted_rest_length (v val rest : List Char)
    (h : matchQuoted v = some (val, rest)) : rest.length < v.length := by
  unfold matchQuoted at h
  split at h
  · rename_i hcond
    obtain ⟨h1, h2, _⟩ := hcond
    injection h with hpair
    injection hpair with _ hrest
    subst hrest
    have hne : v ≠ [] := by
      intro he
      rw [he] at h1
      exact absurd h1 (by simp)
    have hd_ne : v.tail.dropWhile (fun c => c ≠ '"') ≠ [] := by
      intro he
      rw [he] at h2
      exact absurd h2 (by simp)
    have hlen1 : (v.tail.dropWhile (fun c => c ≠ '"')).length ≤ v.tail.length :=
      length_dropWhile_le _ _
    have hlen2 : v.tail.length = v.length - 1 := List.length_tail v
    have hlen3 : ((v.tail.dropWhile (fun c => c ≠ '"')).tail).length =
        (v.tail.dropWhile (fun c => c ≠ '"')).length - 1 :=
      List.length_tail _
    have hpos : 0 < v.length := List.length_pos.mpr hne
    have hdpos : 0 < (v.tail.dropWhile (fun c => c ≠ '"')).length :=
      List.length_pos.mpr hd_ne
    omega
  · exact absurd h (by simp)

theorem matchParamAt_rest_length (l k v r : List Char)
    (h : matchParamAt l = some (k, v, r)) : r.length < l.length := by
  unfold matchParamAt at h
  split at h
  · rename_i hcond
    obtain ⟨h1, _⟩ := hcond
    have hd_ne : l.dropWhile isWordChar ≠ [] := by
      intro he
      rw [he] at h1
      exact absurd h1 (by simp)
    have hdlen : (l.dropWhile isWordChar).length ≤ l.length :=
      length_dropWhile_le _ _
    have hdpos : 0 < (l.dropWhile isWordChar).length :=
      List.length_pos.mpr hd_ne
    have htlen : (l.dropWhile isWordChar).tail.length =
        (l.dropWhile isWordChar).length - 1 := List.length_tail _
    cases hm : matchQuoted (l.dropWhile isWordChar).tail with
    | some vr =>
      obtain ⟨val, rest'⟩ := vr
      simp only [hm] at h
      injection h with hpair
      injection hpair with _ hvr
      injection hvr with _ hr
      subst hr
      have hql := matchQuoted_rest_length _ val rest' hm
      omega
    | none =>
      simp only [hm] at h
      split at h
      · exact absurd h (by simp)
      · rename_i htk
        injection h with hpair
        injection hpair with _ hvr
        injection hvr with _ hr
        subst hr
        have hsplit := congrArg List.length
          (List.takeWhile_append_dropWhile
            (p := fun c => c ≠ ';') (l := (l.dropWhile isWordChar).tail))
        simp only [List.length_append] at hsplit
        have htkpos : 0 < ((l.dropWhile isWordChar).tail.takeWhile
            (fun c => c ≠ ';')).length := List.length_pos.mpr htk
        omega
  · exact absurd h (by simp)

theorem scanParamsF_irrel : ∀ f g : Nat, ∀ l : List Char,
    l.length ≤ f → l.length ≤ g → scanParamsF f l = scanParamsF g l := by
  intro f
  induction f with
  | zero =>
    intro g l hf _
    have : l = [] := List.eq_nil_of_length_eq_zero (by omega)
    subst this
    cases g <;> rfl
  | succ f ih =>
    intro g l hf hg
    cases l with
    | nil => cases g <;> rfl
    | cons c t =>
      cases g with
      | zero => simp at hg
      | succ g' =>
        simp only [List.length_cons] at hf hg
        cases hm : matchParamAt (c :: t) with
        | some kvr =>
          obtain ⟨k, v, r⟩ := kvr
          have hr := matchParamAt_rest_length (c :: t) k v r hm
          simp only [List.length_cons] at hr
          simp only [scanParamsF, hm]
          rw [ih g' r (by omega) (by omega)]
        | none =>
          simp only [scanParamsF, hm]
          exact ih g' t (by omega) (by omega)

theorem scanParams_step (l k v r : List Char)
    (h : matchParamAt l = some (k, v, r)) :
    scanParams l = (k, v) :: scanParams r := by
  cases l with
  | nil => rw [matchParamAt_nil] at h; exact absurd h (by simp)
  | cons c t =>
    have hr := matchParamAt_rest_length (c :: t) k v r h
    simp only [List.length_cons] at hr
    unfold scanParams
    simp only [List.length_cons, scanParamsF, h]
    rw [scanParamsF_irrel t.length r.length r (by omega) (le_refl _)]

theorem scanParams_skip (c : Char) (t : List Char)
    (h : matchParamAt (c :: t) = none) :
    scanParams (c :: t) = scanParams t := by
  unfold scanParams
  simp only [List.length_cons, scanParamsF, h]

/-! ### The parameter tail of a generated `Signature-Input` header -/

/-- The character tail after `sig1=(...);` of a header generated by
`generateSignature`, in scan-friendly right-nested form; definitionally
equal to the tail of `"sig1=" ++ signatureParamsStr …`. -/
def paramTail (cS eS kD nD : List Char) : List Char :=
  ' ' :: ("created".data ++ '=' :: (cS ++ ';' :: ' ' ::
    ("expires".data ++ '=' :: (eS ++ ';' :: ' ' ::
      ("keyid".data ++ '=' :: '"' :: (kD ++ '"' :: ';' :: ' ' ::
        ("alg".data ++ '=' :: '"' :: ("ed25519".data ++ '"' :: ';' :: ' ' ::
          ("nonce".data ++ '=' :: '"' :: (nD ++ '"' :: ';' :: ' ' ::
            ("tag".data ++ '=' :: '"' ::
              ("agent-payer-auth".data ++ ['"']))))))))))))

/-- Scanning the generated parameter tail with
`/(\w+)=("[^"]+"|[^;]+)/g` yields exactly the six parameters, in
order. -/
theorem scanParams_paramTail (cS eS kD nD : List Char)
    (hc0 : cS ≠ []) (hcd : ∀ ch ∈ cS, ch ∈ decDigits)
    (he0 : eS ≠ []) (hed : ∀ ch ∈ eS, ch ∈ decDigits)
    (hk0 : kD ≠ []) (hkq : ∀ ch ∈ kD, ch ≠ '"')
    (hn0 : nD ≠ []) (hnq : ∀ ch ∈ nD, ch ≠ '"') :
    scanParams (paramTail cS eS kD nD) =
      [("created".data, cS), ("expires".data, eS),
       ("keyid".data, '"' :: kD ++ ['"']),
       ("alg".data, '"' :: "ed25519".data ++ ['"']),
       ("nonce".data, '"' :: nD ++ ['"']),
       ("tag".data, '"' :: "agent-payer-auth".data ++ ['"'])] := by
  obtain ⟨c0, ct, rfl⟩ : ∃ a t, cS = a :: t := by
    cases cS with
    | nil => exact absurd rfl hc0
    | cons a t => exact ⟨a, t, rfl⟩
  obtain ⟨e0, et, rfl⟩ : ∃ a t, eS = a :: t := by
    cases eS with
    | nil => exact absurd rfl he0
    | cons a t => exact ⟨a, t, rfl⟩
  have hskip : ∀ t : List Char, matchParamAt (';' :: t) = none :=
    fun t => matchParamAt_skip ';' t (by decide) (by decide)
  have hskipSp : ∀ t : List Char, matchParamAt (' ' :: t) = none :=
    fun t => matchParamAt_skip ' ' t (by decide) (by decide)
  have hcreated := matchParamAt_unquoted "created".data (c0 :: ct)
    (' ' :: ("expires".data ++ '=' :: ((e0 :: et) ++ ';' :: ' ' ::
      ("keyid".data ++ '=' :: '"' :: (kD ++ '"' :: ';' :: ' ' ::
        ("alg".data ++ '=' :: '"' :: ("ed25519".data ++ '"' :: ';' :: ' ' ::
          ("nonce".data ++ '=' :: '"' :: (nD ++ '"' :: ';' :: ' ' ::
            ("tag".data ++ '=' :: '"' ::
              ("agent-payer-auth".data ++ ['"'])))))))))))
    (by decide) (by decide) c0 ct rfl
    ((decDigit_facts c0 (hcd c0 (by simp))).2.2.2.2.1)
    (fun ch hch => (decDigit_facts ch (hcd ch hch)).2.2.2.2.2.1)
  have hexpires := matchParamAt_unquoted "expires".data (e0 :: et)
    (' ' :: ("keyid".data ++ '=' :: '"' :: (kD ++ '"' :: ';' :: ' ' ::
      ("alg".data ++ '=' :: '"' :: ("ed25519".data ++ '"' :: ';' :: ' ' ::
        ("nonce".data ++ '=' :: '"' :: (nD ++ '"' :: ';' :: ' ' ::
          ("tag".data ++ '=' :: '"' ::
            ("agent-payer-auth".data ++ ['"'])))))))))
    (by decide) (by decide) e0 et rfl
    ((decDigit_facts e0 (hed e0 (by simp))).2.2.2.2.1)
    (fun ch hch => (decDigit_facts ch (hed ch hch)).2.2.2.2.2.1)
  have hkeyid := matchParamAt_quoted "keyid".data kD
    (';' :: ' ' ::
      ("alg".data ++ '=' :: '"' :: ("ed25519".data ++ '"' :: ';' :: ' ' ::
        ("nonce".data ++ '=' :: '"' :: (nD ++ '"' :: ';' :: ' ' ::
          ("tag".data ++ '=' :: '"' ::
            ("agent-payer-auth".data ++ ['"'])))))))
    (by decide) (by decide) hk0 hkq
  have halg := matchParamAt_quoted "alg".data "ed25519".data
    (';' :: ' ' ::
      ("nonce".data ++ '=' :: '"' :: (nD ++ '"' :: ';' :: ' ' ::
        ("tag".data ++ '=' :: '"' :: ("agent-payer-auth".data ++ ['"'])))))
    (by decide) (by decide) (by decide) (by decide)
  have hnonce := matchParamAt_quoted "nonce".data nD
    (';' :: ' ' ::
      ("tag".data ++ '=' :: '"' :: ("agent-payer-auth".data ++ ['"'])))
    (by decide) (by decide) hn0 hnq
  have htag := matchParamAt_quoted "tag".data "agent-payer-auth".data []
    (by decide) (by decide) (by decide) (by decide)
  unfold paramTail
  rw [scanParams_skip _ _ (hskipSp _), scanParams_step _ _ _ _ hcreated,
    scanParams_skip _ _ (hskip _), scanParams_skip _ _ (hskipSp _),
    scanParams_step _ _ _ _ hexpires,
    scanParams_skip _ _ (hskip _), scanParams_skip _ _ (hskipSp _),
    scanParams_step _ _ _ _ hkeyid,
    scanParams_skip _ _ (hskip _), scanParams_skip _ _ (hskipSp _),
    scanParams_step _ _ _ _ halg,
    scanParams_skip _ _ (hskip _), scanParams_skip _ _ (hskipSp _),
    scanParams_step _ _ _ _ hnonce,
    scanParams_skip _ _ (hskip _), scanParams_skip _ _ (hskipSp _),
    scanParams_step _ _ _ _ htag]
  rfl

/-! ### Parsing a generated `Signature-Input` header -/

theorem data_append (s t : String) : (s ++ t).data = s.data ++ t.data := rfl

theorem str_ext (a b : String) (h : a.data = b.data) : a = b := by
  cases a
  cases b
  exact congrArg String.mk h

theorem dropWhile_all (p : Char → Bool) (l : List Char)
    (h : ∀ c ∈ l, p c = false) : l.dropWhile p = l := by
  cases l with
  | nil => rfl
  | cons a t => rw [List.dropWhile_cons, if_neg (by simp [h a (by simp)])]

theorem jsTrim_of_no_space (l : List Char)
    (h : ∀ c ∈ l, isJSSpace c = false) : jsTrim l = l := by
  unfold jsTrim
  rw [dropWhile_all _ _ h,
    dropWhile_all _ _ (fun c hc => h c (List.mem_reverse.mp hc)),
    List.reverse_reverse]

theorem stripQuotes_id (l : List Char) (h : ∀ c ∈ l, c ≠ '"') :
    stripQuotes l = l := by
  unfold stripQuotes
  induction l with
  | nil => rfl
  | cons a t ih =>
    rw [List.filter_cons, if_pos (by simp [h a (by simp)])]
    rw [ih (fun c hc => h c (by simp [hc]))]

theorem stripQuotes_quoted (q : List Char) (h : ∀ c ∈ q, c ≠ '"') :
    stripQuotes ('"' :: q ++ ['"']) = q := by
  show stripQuotes ('"' :: (q ++ ['"'])) = q
  unfold stripQuotes
  rw [List.filter_cons, if_neg (by simp), List.filter_append]
  have h1 : List.filter (fun c => c ≠ '"') q = q := stripQuotes_id q h
  have h2 : List.filter (fun c => (c ≠ '"' : Bool)) ['"'] = [] := by decide
  rw [h1, h2, List.append_nil]

/-- A digit list rendered by `natStr` never contains a quote, space,
line terminator or semicolon. -/
theorem natStr_facts (m : Nat) :
    (natStr m).data ≠ [] ∧ (∀ ch ∈ (natStr m).data, ch ∈ decDigits) := by
  exact ⟨natCharsF_ne_nil (m + 1) m (by omega),
    natCharsF_mem (m + 1) m (by omega)⟩

/-- No character of the generated parameter tail is a JS line
terminator (for a well-formed `keyId` and nonce). -/
theorem paramTail_no_lineTerm (c e : Nat) (k n : String)
    (hk2 : ∀ ch ∈ k.data, ch ≠ '"' ∧ isLineTerm ch = false)
    (hn2 : ∀ ch ∈ n.data, ch ≠ '"' ∧ isLineTerm ch = false) :
    ∀ ch ∈ paramTail (natStr c).data (natStr e).data k.data n.data,
      isLineTerm ch = false := by
  have hcd := (natStr_facts c).2
  have hed := (natStr_facts e).2
  unfold paramTail
  simp only [List.forall_mem_cons, List.forall_mem_append]
  repeat' apply And.intro
  all_goals first
    | decide
    | exact fun ch hch => (decDigit_facts ch (hcd ch hch)).2.2.1
    | exact fun ch hch => (decDigit_facts ch (hed ch hch)).2.2.1
    | exact fun ch hch => (hk2 ch hch).2
    | exact fun ch hch => (hn2 ch hch).2

/-- Parsing the `Signature-Input` header produced by
`generateSignature`: for a well-formed `keyId` and nonce (nonempty, no
double quote, no line terminator, trim-invariant), the verifier's
parser recovers the component list and all six parameters exactly. -/
theorem parseSignatureInput_generated (c e : Nat) (k n : String)
    (hk0 : k.data ≠ [])
    (hk2 : ∀ ch ∈ k.data, ch ≠ '"' ∧ isLineTerm ch = false)
    (hktrim : jsTrim k.data = k.data)
    (hn0 : n.data ≠ [])
    (hn2 : ∀ ch ∈ n.data, ch ≠ '"' ∧ isLineTerm ch = false)
    (hntrim : jsTrim n.data = n.data) :
    parseSignatureInput ("sig1=" ++ signatureParamsStr c e k n) =
      some ⟨["@authority", "@path"],
        [("created", natStr c), ("expires", natStr e), ("keyid", k),
         ("alg", "ed25519"), ("nonce", n), ("tag", "agent-payer-auth")]⟩ := by
  have hcd := (natStr_facts c).2
  have hed := (natStr_facts e).2
  have hc0 := (natStr_facts c).1
  have he0 := (natStr_facts e).1
  have hLTtail := paramTail_no_lineTerm c e k n hk2 hn2
  have hshape : ("sig1=" ++ signatureParamsStr c e k n).data =
      's' :: 'i' :: 'g' :: '1' :: '=' :: '(' ::
        ("\"@authority\" \"@path\"".data ++ ')' :: ';' ::
          paramTail (natStr c).data (natStr e).data k.data n.data) := by
    simp only [signatureParamsStr, data_append, List.append_assoc]
    rfl
  have hfind : findSigInputMatch
      ("sig1=" ++ signatureParamsStr c e k n).data =
      some ("\"@authority\" \"@path\"".data,
        paramTail (natStr c).data (natStr e).data k.data n.data) := by
    rw [hshape]
    exact findSigInputMatch_canonical "\"@authority\" \"@path\"".data ' '
      (paramTail (natStr c).data (natStr e).data k.data n.data).tail
      (by decide) (by decide) hLTtail
  have hscan := scanParams_paramTail (natStr c).data (natStr e).data
    k.data n.data hc0 hcd he0 hed hk0 (fun ch hch => (hk2 ch hch).1)
    hn0 (fun ch hch => (hn2 ch hch).1)
  have hcomp : (splitOnSpace "\"@authority\" \"@path\"".data).map
      (fun c => String.mk (stripQuotes c)) = ["@authority", "@path"] := by
    decide
  have hvc : String.mk (jsTrim (stripQuotes (natStr c).data)) = natStr c := by
    rw [stripQuotes_id _
        (fun ch hch => (decDigit_facts ch (hcd ch hch)).2.2.2.2.1),
      jsTrim_of_no_space _
        (fun ch hch => (decDigit_facts ch (hcd ch hch)).2.1)]
  have hve : String.mk (jsTrim (stripQuotes (natStr e).data)) = natStr e := by
    rw [stripQuotes_id _
        (fun ch hch => (decDigit_facts ch (hed ch hch)).2.2.2.2.1),
      jsTrim_of_no_space _
        (fun ch hch => (decDigit_facts ch (hed ch hch)).2.1)]
  have hvk : String.mk (jsTrim (stripQuotes ('"' :: k.data ++ ['"']))) = k := by
    rw [stripQuotes_quoted _ (fun ch hch => (hk2 ch hch).1), hktrim]
  have hvn : String.mk (jsTrim (stripQuotes ('"' :: n.data ++ ['"']))) = n := by
    rw [stripQuotes_quoted _ (fun ch hch => (hn2 ch hch).1), hntrim]
  have hva : String.mk (jsTrim (stripQuotes
      ('"' :: "ed25519".data ++ ['"']))) = "ed25519" := by decide
  have hvt : String.mk (jsTrim (stripQuotes
      ('"' :: "agent-payer-auth".data ++ ['"']))) = "agent-payer-auth" := by
    decide
  unfold parseSignatureInput
  simp only [hfind, hscan, hcomp, List.map_cons, List.map_nil, hvc, hve,
    hvk, hvn, hva, hvt]

/-- Appending after the literal `sig1=` just prefixes its characters. -/
theorem sig1_prefix_data (s : String) :
    ("sig1=" ++ s).data = 's' :: 'i' :: 'g' :: '1' :: '=' :: s.data := rfl

/-- Parsing the `Signature` header produced by `generateSignature`:
for a base64-like payload (nonempty, no colon) the verifier's parser
recovers it exactly. -/
theorem parseSignature_generated (s : String) (hne : s.data ≠ [])
    (hnc : ∀ ch ∈ s.data, ch ≠ ':') :
    parseSignature ("sig1=:" ++ s ++ ":") = some s := by
  obtain ⟨p0, pt, hp⟩ : ∃ a t, s.data = a :: t := by
    cases hl : s.data with
    | nil => exact absurd hl hne
    | cons a t => exact ⟨a, t, rfl⟩
  have hshape : ("sig1=:" ++ s ++ ":").data =
      's' :: 'i' :: 'g' :: '1' :: '=' :: ':' :: ((p0 :: pt) ++ [':']) := by
    simp only [data_append, List.append_assoc, hp]
    rfl
  unfold parseSignature
  rw [hshape, findSignatureMatch_canonical p0 pt (hp ▸ hnc)]
  simp only [Option.map_some']
  rw [← hp]

/-- Running `findSig1Line` over the generated `Signature-Input` recovers the
whole parameter string. -/
theorem findSig1Line_generated (c e : Nat) (k n : String)
    (hk2 : ∀ ch ∈ k.data, ch ≠ '"' ∧ isLineTerm ch = false)
    (hn2 : ∀ ch ∈ n.data, ch ≠ '"' ∧ isLineTerm ch = false) :
    findSig1Line ("sig1=" ++ signatureParamsStr c e k n).data =
      some (signatureParamsStr c e k n).data := by
  have hsp : (signatureParamsStr c e k n).data =
      '(' :: ("\"@authority\" \"@path\"".data ++ ')' :: ';' ::
        paramTail (natStr c).data (natStr e).data k.data n.data) := by
    simp only [signatureParamsStr, data_append, List.append_assoc]
    rfl
  have hLT : ∀ ch ∈ '(' :: ("\"@authority\" \"@path\"".data ++ ')' :: ';' ::
      paramTail (natStr c).data (natStr e).data k.data n.data),
      isLineTerm ch = false := by
    simp only [List.forall_mem_cons, List.forall_mem_append]
    repeat' apply And.intro
    all_goals first
      | decide
      | exact paramTail_no_lineTerm c e k n hk2 hn2
  rw [sig1_prefix_data, hsp]
  exact findSig1Line_canonical _ _ hLT

/-- The base the verifier rebuilds for a request whose observed
host/URL match the signer's inputs equals the signer's base, for any
nonempty authority. -/
theorem buildSignatureBase_generated (req : Req)
    (ps : List (String × String)) (si sp authority path : String)
    (hline : findSig1Line si.data = some sp.data)
    (hhost : req.host = some authority) (hauth : authority ≠ "")
    (hurl1 : req.originalUrl = some path) (hurl2 : req.url = path) :
    buildSignatureBase req ["@authority", "@path"] ps si =
      some (signedBaseStr authority path sp) := by
  have hA : componentLine req "@authority" =
      some ("\"@authority\": " ++ authority) := by
    unfold componentLine
    rw [if_pos rfl, hhost]
    simp only [jsOr]
    rw [if_neg hauth]
  have hP : componentLine req "@path" = some ("\"@path\": " ++ path) := by
    unfold componentLine
    rw [if_neg (by decide), if_pos rfl, hurl1]
    simp only [jsOr]
    by_cases hp : path = ""
    · rw [if_pos hp, hurl2, hp]
    · rw [if_neg hp]
  have hint : ∀ x y z : String,
      String.intercalate "\n" [x, y, z] = ((x ++ "\n") ++ y ++ "\n") ++ z :=
    fun _ _ _ => rfl
  unfold buildSignatureBase
  simp only [hline, List.filterMap_cons, hA, hP, List.filterMap_nil,
    List.cons_append, List.nil_append]
  congr 1
  rw [hint]
  apply str_ext
  simp only [signedBaseStr, data_append, List.append_assoc]
  rfl

/-! ### The round trip -/

set_option maxHeartbeats 1600000 in
/-- Claim C1, amended (round trip with well-formedness side conditions).
For every authority (nonempty — an empty observed host falls back to
`localhost:8000`), path, keyId and nonce that survive the verifier's
regex parsing (nonempty, no double quote, no line terminator,
trim-invariant — the hex nonces produced by `randomBytes` always
qualify), a freshly generated keypair whose public half is registered
under the keyId, a positive signing time, and a verifier clock inside
`[created, created+60]`: presenting the generated headers for a request
whose observed host and URL equal the signed authority and path yields
acceptance with agent id `keyId`.  The crypto hypotheses state the
correctness of Ed25519 sign/verify and that base64 output is nonempty
and colon-free. -/
theorem round_trip_amended :
    ∀ (C : CryptoScheme) (reg : Registry)
      (authority path keyId privateKey nonce : String)
      (created : Nat) (now : Int) (req : Req) (ag : Agent),
      C.verify
        (C.sign privateKey (signedBaseStr authority path
          (signatureParamsStr created (created + 60) keyId nonce)))
        (signedBaseStr authority path
          (signatureParamsStr created (created + 60) keyId nonce))
        (C.pubOf privateKey) = .ok true →
      (C.sign privateKey (signedBaseStr authority path
        (signatureParamsStr created (created + 60) keyId nonce))).data ≠ [] →
      (∀ ch ∈ (C.sign privateKey (signedBaseStr authority path
        (signatureParamsStr created (created + 60) keyId nonce))).data,
        ch ≠ ':') →
      registryGet reg keyId = some ag →
      ag.publicKey = C.pubOf privateKey →
      keyId.data ≠ [] →
      (∀ ch ∈ keyId.data, ch ≠ '"' ∧ isLineTerm ch = false) →
      jsTrim keyId.data = keyId.data →
      nonce.data ≠ [] →
      (∀ ch ∈ nonce.data, ch ≠ '"' ∧ isLineTerm ch = false) →
      jsTrim nonce.data = nonce.data →
      ¬(req.path = "/api/registry/register" ∧ req.method = "POST") →
      req.host = some authority → authority ≠ "" →
      req.originalUrl = some path → req.url = path →
      req.signatureInput = some (generateSignature C authority path keyId
        privateKey created nonce).signatureInput →
      req.signature = some (generateSignature C authority path keyId
        privateKey created nonce).signature →
      0 < created → (created : Int) ≤ now → now ≤ (created : Int) + 60 →
      verifySignature C reg now req = .accepted keyId ag.name := by
  intro C reg authority path keyId privateKey nonce created now req ag
  intro hverify hb64ne hb64nc hreg hagpub hk0 hk2 hktrim hn0 hn2 hntrim
  intro hbypass hhost hauth hurl1 hurl2 hreqsi hreqsg hcpos hle1 hle2
  rw [show (generateSignature C authority path keyId privateKey created
      nonce).signatureInput =
    "sig1=" ++ signatureParamsStr created (created + 60) keyId nonce
    from rfl] at hreqsi
  rw [show (generateSignature C authority path keyId privateKey created
      nonce).signature =
    "sig1=:" ++ C.sign privateKey (signedBaseStr authority path
      (signatureParamsStr created (created + 60) keyId nonce)) ++ ":"
    from rfl] at hreqsg
  have hsine : "sig1=" ++ signatureParamsStr created (created + 60) keyId
      nonce ≠ "" := by
    intro h
    have h2 := congrArg String.data h
    rw [sig1_prefix_data] at h2
    simp at h2
  have hsgne : "sig1=:" ++ C.sign privateKey (signedBaseStr authority path
      (signatureParamsStr created (created + 60) keyId nonce)) ++ ":" ≠
      "" := by
    intro h
    have h2 := congrArg String.data h
    simp only [data_append] at h2
    simp at h2
  have hparse := parseSignatureInput_generated created (created + 60)
    keyId nonce hk0 hk2 hktrim hn0 hn2 hntrim
  have hsig := parseSignature_generated
    (C.sign privateKey (signedBaseStr authority path
      (signatureParamsStr created (created + 60) keyId nonce)))
    hb64ne hb64nc
  have hkid : getParam
      [("created", natStr created), ("expires", natStr (created + 60)),
       ("keyid", keyId), ("alg", "ed25519"), ("nonce", nonce),
       ("tag", "agent-payer-auth")] "keyid" = some keyId := rfl
  have hcrP : getParam
      [("created", natStr created), ("expires", natStr (created + 60)),
       ("keyid", keyId), ("alg", "ed25519"), ("nonce", nonce),
       ("tag", "agent-payer-auth")] "created" = some (natStr created) := rfl
  have hexP : getParam
      [("created", natStr created), ("expires", natStr (created + 60)),
       ("keyid", keyId), ("alg", "ed25519"), ("nonce", nonce),
       ("tag", "agent-payer-auth")] "expires" =
      some (natStr (created + 60)) := rfl
  have hrg2 : registryGet2 reg (some keyId) = some ag := by
    simp [registryGet2, hreg]
  have hb1 : badTs (some ((created : Nat) : Int)) = false := by
    simp [badTs]
    omega
  have hb2 : badTs (some ((created + 60 : Nat) : Int)) = false := by
    simp [badTs]
    omega
  have hts : checkTimestamps now ((created : Nat) : Int)
      ((created + 60 : Nat) : Int) = none := by
    unfold checkTimestamps
    rw [if_neg (by omega), if_neg (by push_cast; omega),
      if_neg (by push_cast; omega)]
  have hbase := buildSignatureBase_generated req
    [("created", natStr created), ("expires", natStr (created + 60)),
     ("keyid", keyId), ("alg", "ed25519"), ("nonce", nonce),
     ("tag", "agent-payer-auth")]
    ("sig1=" ++ signatureParamsStr created (created + 60) keyId nonce)
    (signatureParamsStr created (created + 60) keyId nonce)
    authority path
    (findSig1Line_generated created (created + 60) keyId nonce hk2 hn2)
    hhost hauth hurl1 hurl2
  have hved : verifyEd25519Signature C
      (signedBaseStr authority path
        (signatureParamsStr created (created + 60) keyId nonce))
      (C.sign privateKey (signedBaseStr authority path
        (signatureParamsStr created (created + 60) keyId nonce)))
      ag.publicKey = true := by
    unfold verifyEd25519Signature
    rw [hagpub, hverify]
  simp only [verifySignature, hreqsi, hreqsg, jsFalsy, Option.getD_some]
  rw [if_neg hbypass, if_neg (by simp [hsine, hsgne])]
  simp only [hparse, hsig, hkid, hrg2, Option.getD_some]
  simp only [verifyStage, hcrP, hexP,
    parseIntJS_natStr created, parseIntJS_natStr (created + 60), hb1, hb2,
    Bool.or_self, Bool.false_eq_true, if_false, Option.getD_some, hts,
    hbase, hved, if_true]

/-- Concrete well-formed fixtures for the round-trip witness. -/
def hdrW : SigHeaders :=
  generateSignature toyScheme "localhost:8000" "/api/products?q=laptop"
    "agent-42" "priv" 1000 "ab12"

def reqW : Req :=
  ⟨"/api/products", "GET", some "localhost:8000",
   some "/api/products?q=laptop", "/api/products?q=laptop",
   some hdrW.signatureInput, some hdrW.signature,
   some hdrW.signatureAgent⟩

def regW : Registry :=
  [("agent-42", ⟨"name", toyScheme.pubOf "priv", "ed25519", "t0"⟩)]

/-- Witness for C1 (amended): the concrete round trip succeeds. -/
theorem round_trip_amended_witness :
    verifySignature toyScheme regW 1030 reqW = .accepted "agent-42" "name" :=
  round_trip_amended toyScheme regW "localhost:8000"
    "/api/products?q=laptop" "agent-42" "priv" "ab12" 1000 1030 reqW
    ⟨"name", toyScheme.pubOf "priv", "ed25519", "t0"⟩
    rfl (by decide) (by decide) rfl rfl (by decide) (by decide) (by decide)
    (by decide) (by decide) (by decide) (by decide) rfl (by decide) rfl rfl
    rfl rfl (by decide) (by decide) (by decide)

/-- Fixtures for the C1 counterexample: a keyId containing a double
quote.  The registry holds the freshly generated public key under the
exact keyId, the clock is inside the window, and the signature is one
the crypto accepts — yet verification fails, because the parameter
regex truncates `keyid="a"b"` to `a`. -/
def hdrQ : SigHeaders :=
  generateSignature toyScheme "localhost:8000" "/api/products?q=laptop"
    "a\"b" "priv" 1000 "ab12"

def reqQ : Req :=
  ⟨"/api/products", "GET", some "localhost:8000",
   some "/api/products?q=laptop", "/api/products?q=laptop",
   some hdrQ.signatureInput, some hdrQ.signature,
   some hdrQ.signatureAgent⟩

def regQ : Registry :=
  [("a\"b", ⟨"name", toyScheme.pubOf "priv", "ed25519", "t0"⟩)]

/-- Claim C1 counterexample.  With keyId `a"b` the round trip fails: the
verifier parses the keyid as `a`, finds no such agent, and rejects —
refuting the unconditional round-trip claim. -/
theorem round_trip_counterexample :
    verifySignature toyScheme regQ 1030 reqQ =
      .rejected "Unknown agent"
        "Agent with keyid \"a\" not found in registry" ∧
    verifySignature toyScheme regQ 1030 reqQ ≠ .accepted "a\"b" "name" :=
  ⟨by decide, by decide⟩

/-! ### Claim theorems -/

/-- Claim C4 (freshness boundary).  At the timestamp check with verifier
clock `now`: `expires = now - 1` is rejected as expired (provided the
request is not already rejected as from the future); `expires = now` is
never rejected as expired; `created = now + 61` is rejected as from the
future; `created = now + 60` is never rejected as from the future. -/
theorem freshness_boundary :
    (∀ now created : Int, created ≤ now + 60 →
      checkTimestamps now created (now - 1) =
        some (.rejected "Signature expired" "Signature has expired")) ∧
    (∀ now created : Int,
      checkTimestamps now created now ≠
        some (.rejected "Signature expired" "Signature has expired")) ∧
    (∀ now expires : Int,
      checkTimestamps now (now + 61) expires =
        some (.rejected "Signature from future"
          "Signature created timestamp is in the future")) ∧
    (∀ now expires : Int,
      checkTimestamps now (now + 60) expires ≠
        some (.rejected "Signature from future"
          "Signature created timestamp is in the future")) := by
  refine ⟨?_, ?_, ?_, ?_⟩
  · intro now created h
    unfold checkTimestamps
    rw [if_neg (by omega), if_pos (by omega)]
  · intro now created
    unfold checkTimestamps
    split
    · simp
    · rw [if_neg (by omega)]
      split <;> simp
  · intro now expires
    unfold checkTimestamps
    rw [if_pos (by omega)]
  · intro now expires
    unfold checkTimestamps
    rw [if_neg (by omega)]
    split
    · simp
    · split <;> simp

/-- Witness for C4 at `now = 100`, `created = 50`. -/
theorem freshness_boundary_witness :
    checkTimestamps 100 50 99 =
      some (.rejected "Signature expired" "Signature has expired") :=
  freshness_boundary.1 100 50 (by norm_num)

/-- Claim C5 (validity window cap).  At the timestamp check:
`expires - created = 301` is rejected as validity-too-long (once the
future and expiry checks pass); `expires - created = 300` is never
rejected as validity-too-long. -/
theorem validity_window_cap :
    (∀ now created expires : Int, created ≤ now + 60 → now ≤ expires →
      expires - created = 301 →
      checkTimestamps now created expires =
        some (.rejected "Signature validity too long"
          "Signature validity period exceeds 5 minutes")) ∧
    (∀ now created expires : Int, expires - created = 300 →
      checkTimestamps now created expires ≠
        some (.rejected "Signature validity too long"
          "Signature validity period exceeds 5 minutes")) := by
  constructor
  · intro now created expires h1 h2 h3
    unfold checkTimestamps
    rw [if_neg (by omega), if_neg (by omega), if_pos (by omega)]
  · intro now created expires h
    unfold checkTimestamps
    split
    · simp
    · split
      · simp
      · rw [if_neg (by omega)]
        simp

/-- Witness for C5 at `now = 100`, `created = 99`: a 301-second window
is rejected while a 300-second one passes all three checks. -/
theorem validity_window_cap_witness :
    checkTimestamps 100 99 400 =
      some (.rejected "Signature validity too long"
        "Signature validity period exceeds 5 minutes") :=
  validity_window_cap.1 100 99 400 (by norm_num) (by norm_num) (by norm_num)

/-- The verifier reads the registry only through `registryGet2`, and of
the entry found it reads only `name` and `publicKey`: two registries
that agree on that view at every key make `verifySignature` agree. -/
theorem verifySignature_registry_view_ext (C : CryptoScheme) (now : Int)
    (req : Req) (r1 r2 : Registry)
    (h : ∀ j, (registryGet2 r1 j).map (fun a => (a.name, a.publicKey)) =
      (registryGet2 r2 j).map (fun a => (a.name, a.publicKey))) :
    verifySignature C r1 now req = verifySignature C r2 now req := by
  simp only [verifySignature]
  split
  · rfl
  split
  · rfl
  split
  · rfl
  split
  · rfl
  rename ParsedInput => parsed
  have h' := h (getParam parsed.params "keyid")
  cases e1 : registryGet2 r1 (getParam parsed.params "keyid") <;>
    cases e2 : registryGet2 r2 (getParam parsed.params "keyid")
  · rfl
  · rw [e1, e2] at h'
    simp at h'
  · rw [e1, e2] at h'
    simp at h'
  · rw [e1, e2] at h'
    simp only [Option.map_some', Option.some.injEq, Prod.mk.injEq] at h'
    simp [h'.1, h'.2]

/-- The verifier uses the crypto scheme only through
`verifyEd25519Signature`. -/
theorem verifySignature_crypto_ext (C C' : CryptoScheme) (reg : Registry)
    (now : Int) (req : Req)
    (h : ∀ b s p, verifyEd25519Signature C b s p =
      verifyEd25519Signature C' b s p) :
    verifySignature C reg now req = verifySignature C' reg now req := by
  simp only [verifySignature, verifyStage, h]

/-- Claim C7 (last-write-wins registration).  Registering `keyId` twice
with different material is not an error; afterwards `resolve` returns
the second entry, and every verification behaves exactly as if only the
second registration had happened. -/
theorem registration_last_write_wins :
    ∀ (reg : Registry) (k n1 p1 a1 t1 n2 p2 a2 t2 : String),
      registryGet (registerAgent (registerAgent reg k n1 p1 a1 t1).1
          k n2 p2 a2 t2).1 k = some ⟨n2, p2, a2, t2⟩ ∧
      ∀ (C : CryptoScheme) (now : Int) (req : Req),
        verifySignature C
            (registerAgent (registerAgent reg k n1 p1 a1 t1).1 k n2 p2 a2 t2).1
            now req =
          verifySignature C (registerAgent reg k n2 p2 a2 t2).1 now req := by
  intro reg k n1 p1 a1 t1 n2 p2 a2 t2
  constructor
  · simp [registerAgent, registryGet, List.find?]
  · intro C now req
    apply verifySignature_registry_view_ext
    intro j
    cases j with
    | none => rfl
    | some s =>
      simp only [registryGet2, registerAgent, registryGet, List.find?]
      by_cases hs : k = s <;> simp [hs]

/-- Claim C3, amended (no algorithm check).  The verifier never consults
the registry entry's `algorithm` (or `registeredAt`) field: changing it
changes no verification outcome, so an `alg`/registry mismatch is not
rejected as `AlgorithmMismatch` — the request proceeds to cryptographic
verification as usual. -/
theorem algorithm_field_never_consulted :
    ∀ (C : CryptoScheme) (now : Int) (req : Req) (reg : Registry)
      (k nm pk alg1 alg2 t1 t2 : String),
      verifySignature C ((k, ⟨nm, pk, alg1, t1⟩) :: reg) now req =
        verifySignature C ((k, ⟨nm, pk, alg2, t2⟩) :: reg) now req := by
  intro C now req reg k nm pk alg1 alg2 t1 t2
  apply verifySignature_registry_view_ext
  intro j
  cases j with
  | none => rfl
  | some s =>
    simp only [registryGet2, registryGet, List.find?]
    by_cases hs : k = s <;> simp [hs]

/-- Claim C3 counterexample.  A request whose `Signature-Input` declares
`alg="ed25519"` against a registry entry whose stored algorithm is
`"rsa"`, carrying a signature the crypto accepts, is *accepted* — it is
not rejected with an algorithm-mismatch reason, refuting the claim. -/
theorem algorithm_mismatch_counterexample :
    (parseSignatureInput (reqK.signatureInput.getD "")).map
        (fun p => getParam p.params "alg") = some (some "ed25519") ∧
    (registryGet regRsa "k").map Agent.algorithm = some "rsa" ∧
    verifySignature toyScheme regRsa 1030 reqK =
      .accepted "k" "agent-name" := by
  refine ⟨by decide, by decide, by decide⟩

/-- Claim C8, amended (crypto errors swallowed).  An exception thrown by
the Ed25519 verification is caught inside `verifyEd25519Signature` and
mapped to `false`: a verifier whose crypto always throws is outcome-for-
outcome identical to one whose crypto always returns `false`, so such
internal failures surface as the ordinary `Invalid signature` rejection
rather than a distinct internal-failure outcome.  (Only exceptions
thrown outside that helper — e.g. malformed headers — reach the outer
catch-all, whose error string `"Signature verification failed"` differs
from the authentication rejections'.) -/
theorem crypto_errors_swallowed :
    ∀ (C C' : CryptoScheme) (reg : Registry) (now : Int) (req : Req),
      (∀ s m p, ∃ e, C.verify s m p = .error e) →
      (∀ s m p, C'.verify s m p = .ok false) →
      verifySignature C reg now req = verifySignature C' reg now req := by
  intro C C' reg now req hC hC'
  apply verifySignature_crypto_ext
  intro b s p
  obtain ⟨e, he⟩ := hC s b p
  simp [verifyEd25519Signature, he, hC' s b p]

/-- Witness for C8: the concrete always-throwing scheme against the
concrete always-false scheme on a well-formed request. -/
theorem crypto_errors_swallowed_witness :
    verifySignature throwingScheme regRsa 1030 reqK =
      verifySignature falseScheme regRsa 1030 reqK :=
  crypto_errors_swallowed throwingScheme falseScheme regRsa 1030 reqK
    (fun _ _ _ => ⟨"boom", rfl⟩) (fun _ _ _ => rfl)

/-- Claim C8 counterexample.  With a crypto library that throws during
verification, an otherwise-valid request is rejected with the ordinary
`Invalid signature` reason — byte-identical to a cryptographic mismatch
— not with any distinct internal-failure outcome, refuting the claim. -/
theorem internal_failure_counterexample :
    verifySignature throwingScheme regRsa 1030 reqK =
      .rejected "Invalid signature" "Signature verification failed" := by
  decide

/-- Claim C6 (unknown key).  Once the headers parse, a `keyid` absent
from the registry is rejected as `Unknown agent` — before any timestamp
or cryptographic check is even reached, for every clock value and every
crypto scheme. -/
theorem unknown_agent_precedes_checks :
    ∀ (C : CryptoScheme) (reg : Registry) (now : Int) (req : Req)
      (si sg : String) (parsed : ParsedInput) (sv : String),
      ¬(req.path = "/api/registry/register" ∧ req.method = "POST") →
      req.signatureInput = some si → si ≠ "" →
      req.signature = some sg → sg ≠ "" →
      parseSignatureInput si = some parsed →
      parseSignature sg = some sv →
      registryGet2 reg (getParam parsed.params "keyid") = none →
      verifySignature C reg now req =
        .rejected "Unknown agent"
          ("Agent with keyid \"" ++
            (getParam parsed.params "keyid").getD "undefined" ++
            "\" not found in registry") := by
  intro C reg now req si sg parsed sv hb hsi hne hsg hne2 hp hps hreg
  simp only [verifySignature, hsi, hsg, jsFalsy, Option.getD_some, hp, hps,
    hreg, if_neg hb]
  rw [if_neg (by simp [hne, hne2])]

/-- The parse of `reqK`'s `Signature-Input` header. -/
def parsedK : ParsedInput :=
  ⟨["@authority", "@path"],
   [("created", "1000"), ("expires", "1060"), ("keyid", "k"),
    ("alg", "ed25519"), ("nonce", "ab12"), ("tag", "agent-payer-auth")]⟩

/-- Witness for C6: `reqK` against an empty registry. -/
theorem unknown_agent_precedes_checks_witness :
    verifySignature toyScheme [] 1030 reqK =
      .rejected "Unknown agent" "Agent with keyid \"k\" not found in registry" :=
  unknown_agent_precedes_checks toyScheme [] 1030 reqK
    (reqK.signatureInput.getD "") (reqK.signature.getD "") parsedK "SIG"
    (by decide) rfl (by decide) rfl (by decide) (by decide) (by decide)
    (by decide)

/-- Dropping unrecognized ids from the component list does not change
the base `buildSignatureBase` produces. -/
theorem filterMap_componentLine_filter (req : Req) (comps : List String) :
    comps.filterMap (componentLine req) =
      (comps.filter (fun c => c = "@authority" || c = "@path")).filterMap
        (componentLine req) := by
  induction comps with
  | nil => rfl
  | cons c t ih =>
    simp only [List.filterMap_cons, List.filter_cons]
    by_cases h1 : c = "@authority"
    · simp [componentLine, h1, List.filterMap_cons, ih]
    · by_cases h2 : c = "@path"
      · simp [componentLine, h1, h2, List.filterMap_cons, ih]
      · simp [componentLine, h1, h2, ih]

/-- A request carrying an empty covered-component list `sig1=()` with a
signature the toy scheme accepts. -/
def reqEmptyComps : Req :=
  ⟨"/api/products", "GET", some "localhost:8000",
   some "/api/products?q=laptop", "/api/products?q=laptop",
   some "sig1=(); created=100; expires=160; keyid=\"k\"; alg=\"ed25519\"; nonce=\"ab\"; tag=\"t\"",
   some "sig1=:SIG:", none⟩

/-- Claim C10 (unrecognized components silently dropped).  The rebuilt
base emits lines only for `@authority`/`@path`: (1) any other id can be
deleted from the component list without changing the base; (2) a list
with no recognized id — including the empty-string id an empty `()`
list parses to — yields a base that is just the `@signature-params`
line; and (3) a request signed over only unrecognized components still
verifies end to end. -/
theorem unrecognized_components_dropped :
    (∀ (req : Req) (ps : List (String × String)) (si : String)
        (comps : List String),
        buildSignatureBase req comps ps si =
          buildSignatureBase req
            (comps.filter (fun c => c = "@authority" || c = "@path")) ps si) ∧
    (∀ (req : Req) (ps : List (String × String)) (si : String)
        (g : List Char) (comps : List String),
        findSig1Line si.data = some g →
        (∀ c ∈ comps, c ≠ "@authority" ∧ c ≠ "@path") →
        buildSignatureBase req comps ps si =
          some ("\"@signature-params\": " ++ String.mk g)) ∧
    verifySignature toyScheme regRsa 120 reqEmptyComps =
      .accepted "k" "agent-name" := by
  refine ⟨?_, ?_, by decide⟩
  · intro req ps si comps
    unfold buildSignatureBase
    cases findSig1Line si.data
    · rfl
    · rw [filterMap_componentLine_filter]
  · intro req ps si g comps hline hcomps
    unfold buildSignatureBase
    rw [hline]
    have hnil : comps.filterMap (componentLine req) = [] := by
      rw [List.filterMap_eq_nil_iff]
      intro c hc
      have := hcomps c hc
      simp [componentLine, this.1, this.2]
    rw [hnil]
    rfl

/-- Witness for C10 (second conjunct) at a concrete unrecognized-only
component list. -/
theorem unrecognized_components_dropped_witness :
    buildSignatureBase reqEmptyComps ["@method", ""] []
        (reqEmptyComps.signatureInput.getD "") =
      some "\"@signature-params\": (); created=100; expires=160; keyid=\"k\"; alg=\"ed25519\"; nonce=\"ab\"; tag=\"t\"" :=
  unrecognized_components_dropped.2.1 reqEmptyComps []
    (reqEmptyComps.signatureInput.getD "")
    ("(); created=100; expires=160; keyid=\"k\"; alg=\"ed25519\"; nonce=\"ab\"; tag=\"t\"".data)
    ["@method", ""] (by decide) (by decide)

/-- When every listed component is recognized, the base is one line per
component, in list order. -/
theorem filterMap_componentLine_map (req : Req) (comps : List String)
    (h : ∀ c ∈ comps, c = "@authority" ∨ c = "@path") :
    comps.filterMap (componentLine req) =
      comps.map (fun c =>
        if c = "@authority" then
          "\"@authority\": " ++ jsOr req.host "localhost:8000"
        else "\"@path\": " ++ jsOr req.originalUrl req.url) := by
  induction comps with
  | nil => rfl
  | cons c t ih =>
    simp only [List.filterMap_cons, List.map_cons]
    rw [ih (fun x hx => h x (by simp [hx]))]
    rcases h c (by simp) with h1 | h1 <;> simp [componentLine, h1]

/-- Claim C2 (canonical base construction).  (1) For a component list of
recognized ids, the base is one `"<id>": <value>` line per component in
list order, then the final `"@signature-params"` line, joined with
single newlines and no trailing newline.  (2) The concrete scenario of
the spec (authority `localhost:8000`, path `/api/products?q=laptop`,
keyId `agent-42`, created 1000, expires 1060, nonce `ab12`, tag
`agent-browser-auth`) produces exactly the expected three-line base. -/
theorem canonical_base_construction :
    (∀ (req : Req) (ps : List (String × String)) (si : String)
        (g : List Char) (comps : List String),
        findSig1Line si.data = some g →
        (∀ c ∈ comps, c = "@authority" ∨ c = "@path") →
        buildSignatureBase req comps ps si =
          some (String.intercalate "\n"
            (comps.map (fun c =>
              if c = "@authority" then
                "\"@authority\": " ++ jsOr req.host "localhost:8000"
              else "\"@path\": " ++ jsOr req.originalUrl req.url) ++
             ["\"@signature-params\": " ++ String.mk g]))) ∧
    buildSignatureBase
        ⟨"/api/products", "GET", some "localhost:8000",
         some "/api/products?q=laptop", "/api/products?q=laptop",
         none, none, none⟩
        ["@authority", "@path"] []
        "sig1=(\"@authority\" \"@path\"); created=1000; expires=1060; keyid=\"agent-42\"; alg=\"ed25519\"; nonce=\"ab12\"; tag=\"agent-browser-auth\"" =
      some "\"@authority\": localhost:8000\n\"@path\": /api/products?q=laptop\n\"@signature-params\": (\"@authority\" \"@path\"); created=1000; expires=1060; keyid=\"agent-42\"; alg=\"ed25519\"; nonce=\"ab12\"; tag=\"agent-browser-auth\"" := by
  constructor
  · intro req ps si g comps hline hcomps
    unfold buildSignatureBase
    rw [hline, filterMap_componentLine_map req comps hcomps]
  · decide

/-- Witness for C2 (first conjunct) at a concrete recognized-only
component list, with the components deliberately out of their usual
order to exhibit list-order emission. -/
theorem canonical_base_construction_witness :
    buildSignatureBase reqK ["@path", "@authority"] []
        (reqK.signatureInput.getD "") =
      some "\"@path\": /api/products?q=laptop\n\"@authority\": localhost:8000\n\"@signature-params\": (\"@authority\" \"@path\"); created=1000; expires=1060; keyid=\"k\"; alg=\"ed25519\"; nonce=\"ab12\"; tag=\"agent-payer-auth\"" :=
  canonical_base_construction.1 reqK [] (reqK.signatureInput.getD "")
    ("(\"@authority\" \"@path\"); created=1000; expires=1060; keyid=\"k\"; alg=\"ed25519\"; nonce=\"ab12\"; tag=\"agent-payer-auth\"".data)
    ["@path", "@authority"] (by decide) (by decide)

/-- Claim C9 (Signature-Agent noninterference).  Two requests identical
except for the `Signature-Agent` header produce the same outcome — the
same accept/reject decision and the same attached agent identity. -/
theorem signature_agent_noninterference :
    ∀ (C : CryptoScheme) (registry : Registry) (now : Int) (req : Req)
      (v : Option String),
      verifySignature C registry now { req with signatureAgent := v } =
        verifySignature C registry now req := by
  intro C registry now req v
  rfl

end AgenticCommerce
